import Mathlib

/-!
Shallow embedding of the session-lifecycle orchestrator of the `reflex`
repository (brainbox / container-lifecycle packages), together with proofs
about its specification.

Conventions of the embedding:
* Python dicts become association lists (`List (String × α)`) with
  insertion-order-preserving overwrite, mirroring CPython semantics.
* Fallible calls to external collaborators (docker engine, `op` CLI,
  `cosign` CLI, the filesystem) are parameters of the embedded functions:
  each function takes the outcome of every external call it performs as an
  explicit input, and computes exactly what the Python source computes
  from those outcomes.
* Raising an exception becomes returning `Except.error`.
-/

namespace Spec2Proof

/-- Dictionary lookup on an association list (Python `d.get(k)`). -/
def lookupA {κ α : Type} [DecidableEq κ] (m : List (κ × α)) (k : κ) :
    Option α :=
  match m with
  | [] => none
  | (k', v) :: rest => if k' = k then some v else lookupA rest k

/-- Dictionary assignment `d[k] = v`: overwrite in place when the key is
present (CPython keeps the original insertion position), append otherwise. -/
def upsertA {κ α : Type} [DecidableEq κ] (m : List (κ × α)) (k : κ) (v : α) :
    List (κ × α) :=
  match m with
  | [] => [(k, v)]
  | (k', v') :: rest =>
    if k' = k then (k, v) :: rest else (k', v') :: upsertA rest k v

/-- Dictionary removal `d.pop(k, None)`: drop the binding for `k`.  A dict
holds at most one binding per key, so dropping every pair whose key is `k`
is the faithful rendering. -/
def removeA {κ α : Type} [DecidableEq κ] (m : List (κ × α)) (k : κ) :
    List (κ × α) :=
  m.filter (fun kv => kv.1 ≠ k)

/-!
Secret Resolver — embedding of
`src/container-lifecycle/src/container_lifecycle/secrets.py`.
-/

namespace Secrets

/-- Python `re`: a character matching `[A-Za-z0-9]` (ASCII alphanumeric);
`Char.isAlphanum` checks exactly these ranges. -/
def isWordChar (c : Char) : Bool := c.isAlphanum

/-- Effect of `re.sub(r"[^A-Za-z0-9]+", "_", raw)` on the character list:
each maximal run of non-alphanumeric characters becomes one underscore.
The Bool state records whether the previous character belonged to a
non-word run (so the run's further characters emit nothing). -/
def collapseAux : Bool → List Char → List Char
  | _, [] => []
  | inRun, c :: cs =>
    if isWordChar c then c :: collapseAux false cs
    else if inRun then collapseAux true cs
    else '_' :: collapseAux true cs

/-- Maximal non-word runs each replaced by a single underscore. -/
def collapseRuns (l : List Char) : List Char := collapseAux false l

/-- Effect of `.strip("_")`: remove leading and trailing underscores. -/
def trimEdges (l : List Char) : List Char :=
  ((l.dropWhile (fun c => c = '_')).reverse.dropWhile (fun c => c = '_')).reverse

/-- Embedding of `_to_env_name(item_title, field_label)`:
`re.sub(r"[^A-Za-z0-9]+", "_", title + "_" + label).strip("_").upper()`. -/
def _to_env_name (item_title field_label : String) : String :=
  let raw := item_title ++ "_" ++ field_label
  String.mk ((trimEdges (collapseRuns raw.data)).map Char.toUpper)

/-- Specification-side reading of the derivation rule: the maximal
alphanumeric runs of the raw character list, in order. -/
def wordRuns : List Char → List (List Char)
  | [] => []
  | c :: cs =>
    if isWordChar c then
      (c :: cs.takeWhile isWordChar) :: wordRuns (cs.dropWhile isWordChar)
    else wordRuns cs
termination_by l => l.length
decreasing_by
  · simp only [List.length_cons]
    exact Nat.lt_succ_of_le (List.dropWhile_sublist isWordChar).length_le
  · simp only [List.length_cons]
    omega

/-- Adjacent runs joined by exactly one underscore. -/
def joinRuns : List (List Char) → List Char
  | [] => []
  | [r] => r
  | r :: rest => r ++ '_' :: joinRuns rest

/-- The spec's wording of the secret env-name derivation, stated
independently of the implementation's single-pass automaton: split
`title + "_" + label` into maximal alphanumeric runs (each run of
non-alphanumeric characters acts as one separator, so edge separators
vanish and adjacent runs are joined by exactly one underscore), then
upper-case the result. -/
def specEnvName (item_title field_label : String) : String :=
  String.mk ((joinRuns (wordRuns (item_title ++ "_" ++
    field_label).data)).map Char.toUpper)

/-- One entry of the `fields` array of `op item get` output. -/
structure OpField where
  fieldId : String
  fieldType : String
  label : String
  value : String
deriving DecidableEq, Repr

/-- One entry of the `op item list` output (`id` plus optional `title`;
the source falls back to the id when the title is absent). -/
structure ItemSummary where
  itemId : String
  title : Option String
deriving DecidableEq, Repr

/-- Python `item_summary.get("title", item_id)`. -/
def titleOf (s : ItemSummary) : String := s.title.getD s.itemId

/-- The frozenset `_SKIP_FIELD_IDS`. -/
def skipFieldIds : List String := ["notesPlain"]

/-- The frozenset `_SKIP_FIELD_TYPES`. -/
def skipFieldTypes : List String := ["OTP"]

/-- Inner loop of `resolve_from_op` over one item's fields: skip notes and
OTP fields and empty labels/values, then store the derived name
(overwriting any earlier binding, as the Python dict assignment does). -/
def processFields (item_title : String) :
    List OpField → List (String × String) → List (String × String)
  | [], acc => acc
  | f :: rest, acc =>
    if skipFieldIds.contains f.fieldId then processFields item_title rest acc
    else if skipFieldTypes.contains f.fieldType then
      processFields item_title rest acc
    else if f.label = "" ∨ f.value = "" then processFields item_title rest acc
    else
      processFields item_title rest
        (upsertA acc (_to_env_name item_title f.label) f.value)

/-- Outer loop of `resolve_from_op` over the listed items: each `op item
get` outcome is an input (`opGet`); a backend error aborts the whole
resolution (`raise` after the log line). -/
def resolveItems (opGet : String → Except String (List OpField)) :
    List ItemSummary → List (String × String) →
    Except String (List (String × String))
  | [], acc => Except.ok acc
  | s :: rest, acc =>
    match opGet s.itemId with
    | Except.error e => Except.error e
    | Except.ok fields =>
      resolveItems opGet rest (processFields (titleOf s) fields acc)

/-- Embedding of `resolve_from_op(sa_token)`: the outcome of
`op item list` and of each `op item get` are inputs; any backend error is
re-raised, an empty item list short-circuits to the empty map. -/
def resolve_from_op (opList : Except String (List ItemSummary))
    (opGet : String → Except String (List OpField)) :
    Except String (List (String × String)) :=
  match opList with
  | Except.error e => Except.error e
  | Except.ok items =>
    if items = [] then Except.ok [] else resolveItems opGet items []

end Secrets

/-!
Signature Verifier — embedding of `_verify_cosign` from
`src/brainbox/src/brainbox/lifecycle.py` (lines 356-434) together with the
`CosignResult` shape from `src/brainbox/src/brainbox/cosign.py`.
-/

namespace Cosign

/-- The `settings.cosign` block.  The Python fields are strings whose empty
value is falsy (`bool(key_path)` etc.), so the embedding keeps them as
strings and tests emptiness exactly where the source does. -/
structure CosignSettings where
  mode : String
  key : String
  certificate_identity : String
  oidc_issuer : String
deriving DecidableEq, Repr

/-- Outcome of one `cosign verify` subprocess run (`CosignResult`). -/
structure ToolResult where
  verified : Bool
  image_ref : String
  stdout : String
  stderr : String
deriving DecidableEq, Repr

/-- The exceptions `_verify_cosign` can raise. -/
inductive VerifyErr
  /-- ValueError: enforce mode with neither keyless config nor a key. -/
  | configError : VerifyErr
  /-- FileNotFoundError: configured key file absent on disk. -/
  | keyNotFound : String → VerifyErr
  /-- ValueError: image has no repo digests (local-only image). -/
  | noDigests : String → VerifyErr
  /-- CosignVerificationError: the tool reported a bad signature. -/
  | verificationFailed : String → VerifyErr
deriving DecidableEq, Repr

/-- Result of `_verify_cosign`: whether the external cosign tool was
invoked, and the normal-return / raised-exception outcome. -/
structure VerifyOutcome where
  invoked : Bool
  result : Except VerifyErr Unit
deriving Repr

/-- Embedding of `_verify_cosign(image, image_name, slog)`.  External
inputs: whether the configured key file exists on disk
(`os.path.isfile(key_path)`), the image's `RepoDigests` list, and the
result the cosign subprocess would report if invoked. -/
def _verify_cosign (s : CosignSettings) (keyFileExists : Bool)
    (repoDigests : List String) (tool : ToolResult) (image_name : String) :
    VerifyOutcome :=
  if s.mode = "off" then ⟨false, Except.ok ()⟩
  else
    let use_keyless : Bool := s.certificate_identity ≠ "" ∧ s.oidc_issuer ≠ ""
    let use_key : Bool := s.key ≠ ""
    if ¬use_keyless ∧ ¬use_key then
      if s.mode = "enforce" then ⟨false, Except.error VerifyErr.configError⟩
      else ⟨false, Except.ok ()⟩
    else if ¬use_keyless ∧ use_key ∧ ¬keyFileExists then
      if s.mode = "enforce" then
        ⟨false, Except.error (VerifyErr.keyNotFound s.key)⟩
      else ⟨false, Except.ok ()⟩
    else if repoDigests = [] then
      if s.mode = "enforce" then
        ⟨false, Except.error (VerifyErr.noDigests image_name)⟩
      else ⟨false, Except.ok ()⟩
    else
      -- keyless preferred when configured; either way the tool runs once
      -- against the first repo digest and reports `tool`.
      if tool.verified then ⟨true, Except.ok ()⟩
      else if s.mode = "enforce" then
        ⟨true, Except.error (VerifyErr.verificationFailed tool.image_ref)⟩
      else ⟨true, Except.ok ()⟩

end Cosign

/-!
Hardening Policy — embedding of `src/brainbox/src/brainbox/hardening.py`.
-/

namespace Hardening

/-- The `settings.resources` block.  `nano_cpus` in the source is
`int(float(r.cpus) * 1e9)`; the embedding carries the already-converted
nanosecond count, since no claim concerns the float conversion. -/
structure ResourceSettings where
  memory : String
  cpusNanos : Nat
  tmpfs_workspace : String
  tmpfs_tmp : String
  tmpfs_secrets : String
deriving DecidableEq, Repr

/-- The `settings.hardening` block (`seccomp_profile` is unused by the
kwargs builders). -/
structure HardeningSettings where
  read_only_rootfs : Bool
  no_new_privileges : Bool
  drop_caps : List String
deriving DecidableEq, Repr

/-- Multiplier table of `_parse_tmpfs_size` (`size[-1].upper()`). -/
def sizeMultiplier (c : Char) : Option Nat :=
  if c.toUpper = 'K' then some 1024
  else if c.toUpper = 'M' then some (1024 ^ 2)
  else if c.toUpper = 'G' then some (1024 ^ 3)
  else none

/-- Embedding of `_parse_tmpfs_size(size)`: strip a K/M/G suffix and
multiply; `int(...)` raising on a malformed number becomes `none`. -/
def _parse_tmpfs_size (size : String) : Option Nat :=
  match size.data.getLast? with
  | none => size.toNat?
  | some c =>
    match sizeMultiplier c with
    | some m => (String.mk size.data.dropLast).toNat?.map (· * m)
    | none => size.toNat?

/-- One entry of the `mounts` list (`docker.types.Mount` with
`type="tmpfs"`, `source=""`). -/
structure TmpfsMount where
  target : String
  tmpfs_size : Option Nat
  tmpfs_mode : Nat
deriving DecidableEq, Repr

/-- A `host:container:mode` bind for the `volumes` dict value. -/
structure VolumeBind where
  bind : String
  mode : String
deriving DecidableEq, Repr

/-- The docker `containers.create(**kwargs)` keyword dict built by
`provision`, as a record: base keys always present, fragment keys from the
hardened/legacy builders optional (absent = `none`). -/
structure CreateKwargs where
  image : String
  name : String
  command : List String
  ports : List (String × (String × Nat))
  labels : List (String × String)
  detach : Bool
  volumes : List (String × VolumeBind)
  read_only : Option Bool := none
  cap_drop : Option (List String) := none
  mem_limit : Option String := none
  nano_cpus : Option Nat := none
  user : Option String := none
  tmpfs : Option (List (String × String)) := none
  mounts : Option (List TmpfsMount) := none
  security_opt : Option (List String) := none
  ipc_mode : Option String := none
deriving DecidableEq, Repr

/-- Embedding of `kwargs.update(get_hardening_kwargs())` (the `user`
argument defaults to `settings.user`). -/
def get_hardening_kwargs (h : HardeningSettings) (r : ResourceSettings)
    (user : String) (k : CreateKwargs) : CreateKwargs :=
  let k1 := { k with
    read_only := some h.read_only_rootfs
    cap_drop := some h.drop_caps
    mem_limit := some r.memory
    nano_cpus := some r.cpusNanos
    user := some user
    tmpfs := some [("/workspace", "size=" ++ r.tmpfs_workspace),
                   ("/tmp", "size=" ++ r.tmpfs_tmp)]
    mounts := some [⟨"/run/secrets", _parse_tmpfs_size r.tmpfs_secrets, 0o400⟩,
                    ⟨"/run/profile", _parse_tmpfs_size "1M", 0o644⟩] }
  if h.no_new_privileges then
    { k1 with security_opt := some ["no-new-privileges:true"] }
  else k1

/-- Embedding of `kwargs.update(get_legacy_kwargs())`. -/
def get_legacy_kwargs (k : CreateKwargs) : CreateKwargs :=
  { k with ipc_mode := some "host" }

end Hardening

/-!
Mount Resolver — embedding of `_resolve_dir` and
`_resolve_profile_mounts` from `src/brainbox/src/brainbox/lifecycle.py`
(lines 55-79 and 117-242).

Paths are modelled as component lists; the host filesystem is a finite
structure listing the directories and files that exist.  Environment
variables whose value is a path are an association list; a variable with
an empty (falsy) value is simply absent from the list, matching the
`if val:` guards of the source.
-/

namespace Mounts

abbrev Path := List String

/-- The directories and files that exist on the host. -/
structure FS where
  dirs : List Path
  files : List Path
deriving Repr

def FS.isDir (fs : FS) (p : Path) : Bool := fs.dirs.contains p

def FS.isFile (fs : FS) (p : Path) : Bool := fs.files.contains p

/-- Python `Path(val).parent`. -/
def parentDir (p : Path) : Path := p.dropLast

abbrev Env := List (String × Path)

/-- Embedding of `_resolve_dir(env_vars, fallback, use_parent=...,
env_override=...)`: first environment variable whose (possibly
parent-of) path is a directory wins, else the fallback if it is a
directory, else nothing.  `env_source` is already the override map when
one was given, `os.environ` otherwise. -/
def _resolve_dir (env_vars : List String) (fallback : Path)
    (use_parent : Bool) (env_source : Env) (fs : FS) : Option Path :=
  match env_vars with
  | [] => if fs.isDir fallback then some fallback else none
  | v :: rest =>
    match lookupA env_source v with
    | some val =>
      let candidate := if use_parent then parentDir val else val
      if fs.isDir candidate then some candidate
      else _resolve_dir rest fallback use_parent env_source fs
    | none => _resolve_dir rest fallback use_parent env_source fs

/-- The `settings.profile` per-kind mount toggles. -/
structure ProfileSettings where
  mount_aws : Bool
  mount_azure : Bool
  mount_kube : Bool
  mount_ssh : Bool
  mount_gitconfig : Bool
  mount_gcloud : Bool
  mount_terraform : Bool
deriving DecidableEq, Repr

/-- The `container_targets` dict. -/
def container_targets (name : String) : String :=
  if name = "aws" then "/home/developer/.aws"
  else if name = "azure" then "/home/developer/.azure"
  else if name = "kube" then "/home/developer/.kube"
  else if name = "ssh" then "/home/developer/.ssh"
  else if name = "gitconfig" then "/home/developer/.gitconfig"
  else if name = "gcloud" then "/home/developer/.gcloud"
  else "/home/developer/.terraform.d"

/-- The gitconfig branch's env-var loop: first variable whose value is an
existing file (a non-file value does not break the loop). -/
def findGitconfigEnv (env_vars : List String) (env_source : Env) (fs : FS) :
    Option Path :=
  match env_vars with
  | [] => none
  | v :: rest =>
    match lookupA env_source v with
    | some val =>
      if fs.isFile val then some val
      else findGitconfigEnv rest env_source fs
    | none => findGitconfigEnv rest env_source fs

/-- One `mount_specs` row: (enabled, name, env_vars, fallback, use_parent). -/
abbrev MountSpec := Bool × String × List String × Path × Bool

/-- Resolution of one `mount_specs` row to its host path, if any: a
disabled row yields nothing; the gitconfig row mounts a file (env-var
candidates first, then the fallback file); every other row goes through
`_resolve_dir`. -/
def resolveSpecRow (fs : FS) (env_source : Env) (s : MountSpec) :
    Option Path :=
  if ¬s.1 then none
  else if s.2.1 = "gitconfig" then
    match findGitconfigEnv s.2.2.1 env_source fs with
    | some p => some p
    | none => if fs.isFile s.2.2.2.1 then some s.2.2.2.1 else none
  else _resolve_dir s.2.2.1 s.2.2.2.1 s.2.2.2.2 env_source fs

/-- The `for enabled, name, env_vars, fallback, use_parent in mount_specs`
loop: each row that resolves adds `host → (bind target, rw)`. -/
def processSpecs (fs : FS) (env_source : Env) :
    List MountSpec → List (Path × Hardening.VolumeBind) →
    List (Path × Hardening.VolumeBind)
  | [], mounts => mounts
  | s :: rest, mounts =>
    match resolveSpecRow fs env_source s with
    | some p =>
      processSpecs fs env_source rest
        (upsertA mounts p ⟨container_targets s.2.1, "rw"⟩)
    | none => processSpecs fs env_source rest mounts

/-- Embedding of `_resolve_profile_mounts(workspace_profile,
workspace_home)`.  External inputs: the filesystem, `os.environ` (as the
path-valued variables), the real home directory (`Path.home()`), and
`cacheOf profile wh` standing for `_read_cache_vars(profile, wh)` — the
parsed content of the volatile cache file
`$TMPDIR/sp-profiles/{profile}/.env` with `$WORKSPACE_HOME` expanded to
`wh` (the file's content is host state, so its parsed form is an input). -/
def _resolve_profile_mounts (p : ProfileSettings) (fs : FS) (osEnv : Env)
    (realHome : Path) (cacheOf : String → Path → Env)
    (workspace_profile : Option String) (workspace_home : Option Path) :
    List (Path × Hardening.VolumeBind) :=
  let resolved : Path × Path × Env × Bool :=
    match workspace_home with
    | some wh =>
      let cv := match workspace_profile with
        | some pr => cacheOf pr wh
        | none => []
      (wh, wh, cv, !cv.isEmpty)
    | none =>
      (realHome, (lookupA osEnv "WORKSPACE_HOME").getD realHome,
       ([] : Env), true)
  let home := resolved.1
  let ws_path := resolved.2.1
  let cache_vars := resolved.2.2.1
  let use_env : Bool := resolved.2.2.2
  let env_override : Option Env :=
    if cache_vars.isEmpty then none else some cache_vars
  let env_source := env_override.getD osEnv
  -- `if (use_env or cache_vars) else []` on each row
  let useVars : Bool := use_env || !cache_vars.isEmpty
  let pick (vars : List String) : List String := if useVars then vars else []
  let specs : List MountSpec := [
    (p.mount_aws, "aws",
      pick ["AWS_CONFIG_FILE", "AWS_SHARED_CREDENTIALS_FILE"],
      home ++ [".aws"], true),
    (p.mount_azure, "azure", pick ["AZURE_CONFIG_DIR"],
      home ++ [".azure"], false),
    (p.mount_kube, "kube", pick ["KUBECONFIG"], home ++ [".kube"], true),
    (p.mount_ssh, "ssh", [], ws_path ++ [".ssh"], false),
    (p.mount_gitconfig, "gitconfig", pick ["GIT_CONFIG_GLOBAL"],
      ws_path ++ [".gitconfig"], false),
    (p.mount_gcloud, "gcloud", pick ["CLOUDSDK_CONFIG"],
      home ++ [".gcloud"], false),
    (p.mount_terraform, "terraform", pick ["TF_CLI_CONFIG_FILE"],
      home ++ [".terraform.d"], true)]
  let mounts := processSpecs fs env_source specs []
  -- nested AWS SSO token-cache bind from the real home
  if workspace_home.isSome && p.mount_aws &&
      fs.isDir (realHome ++ [".aws", "sso", "cache"]) then
    upsertA mounts (realHome ++ [".aws", "sso", "cache"])
      ⟨"/home/developer/.aws/sso/cache", "rw"⟩
  else mounts

end Mounts

/-!
Lifecycle Orchestrator — embedding of
`src/brainbox/src/brainbox/lifecycle.py` together with the session data
model of `src/brainbox/src/brainbox/models.py`.
-/

namespace Lifecycle

/-- The `SessionState` enum (models.py lines 43-50). -/
inductive SessionState
  | provisioning
  | configuring
  | starting
  | running
  | monitoring
  | recycling
  | recycled
deriving DecidableEq, Repr

/-- Pipeline position of a state, for skip/regress statements. -/
def SessionState.rank : SessionState → Nat
  | .provisioning => 0
  | .configuring => 1
  | .starting => 2
  | .running => 3
  | .monitoring => 4
  | .recycling => 5
  | .recycled => 6

/-- The `Token` model (models.py lines 29-35). -/
structure Token where
  token_id : String
  agent_name : String
  task_id : String
  capabilities : List String
  issued : Nat
  expiry : Nat
deriving DecidableEq, Repr

/-- The `SessionContext` model with exactly the fields models.py declares
(lines 53-70).  `provision` passes `workspace_profile` and
`workspace_home` keyword arguments to the constructor, but no such fields
are declared, and pydantic silently drops unknown init kwargs — so the
context stores neither value and reading them back raises
AttributeError. -/
structure SessionContext where
  session_name : String
  container_name : String
  port : Nat
  role : String
  state : SessionState
  created_at : Nat
  ttl : Nat
  hardened : Bool
  volume_mounts : List String
  secrets : List (String × String)
  health_failures : Nat
  token : Option Token
  env_content : Option String
  llm_provider : String
  llm_model : Option String
  ollama_host : Option String
  profile_mounts : List String
deriving DecidableEq, Repr

/-- The module-level `_sessions` dict. -/
abbrev Registry := List (String × SessionContext)

/-- The exceptions the lifecycle phases can raise. -/
inductive Err
  /-- `client.images.get` failed. -/
  | imageMissing : Err
  /-- `_verify_cosign` raised. -/
  | cosign : Cosign.VerifyErr → Err
  /-- some other docker-engine call failed and was re-raised. -/
  | engine : Err
  /-- ValueError from `_resolve`: unknown session name. -/
  | sessionNotFound : String → Err
  /-- `resolve_secrets` raised (secrets backend failure). -/
  | resolutionFailed : String → Err
  /-- AttributeError: access to a pydantic field that was never declared. -/
  | attributeMissing : String → Err
deriving DecidableEq, Repr

/-- Result of one phase call: the registry afterwards, the returned
context or raised exception, and the sequence of assignments the phase
made to `ctx.state`, in order. -/
structure PhaseOut where
  registry : Registry
  result : Except Err SessionContext
  stateWrites : List SessionState

/-- The `while port in used: port += 1` loop of `_find_available_port`,
with enough fuel to pass every member of `used`. -/
def scanFrom (used : List Nat) : Nat → Nat → Nat
  | 0, port => port
  | fuel + 1, port =>
    if port ∈ used then scanFrom used fuel (port + 1) else port

/-- Embedding of `_find_available_port(start=7681)`: scan the published
host ports of running containers for the lowest free port at or above
`start`; any exception during the scan falls back to `start` itself. -/
def _find_available_port (runningPorts : List Nat) (scanOk : Bool)
    (start : Nat) : Nat :=
  if scanOk then scanFrom runningPorts (runningPorts.length + 1) start
  else start

/-- Embedding of `_resolve(ctx_or_name)` (lifecycle.py lines 900-906). -/
def _resolve (reg : Registry) (c : Sum String SessionContext) :
    Except Err SessionContext :=
  match c with
  | Sum.inl name =>
    match lookupA reg name with
    | some ctx => Except.ok ctx
    | none => Except.error (Err.sessionNotFound name)
  | Sum.inr ctx => Except.ok ctx

/-- In Python the registry holds the very `SessionContext` object the
phases mutate, so a mutation is visible in the registry exactly when the
session name is currently mapped.  `writeback` reflects a mutation of
`ctx` into the registry under that aliasing discipline. -/
def writeback (reg : Registry) (ctx : SessionContext) : Registry :=
  if (lookupA reg ctx.session_name).isSome then
    upsertA reg ctx.session_name ctx
  else reg

/-- The configuration values the lifecycle phases read from `settings`. -/
structure Settings where
  role : String
  containerPfx : String
  image : String
  ttl : Nat
  user : String
  sessions_dir : Mounts.Path
  cosign : Cosign.CosignSettings
  hardening : Hardening.HardeningSettings
  resources : Hardening.ResourceSettings
  profile : Mounts.ProfileSettings
  ollama_host : String
  ollama_model : String

/-- The keyword arguments of `provision` (defaults as in the source; an
explicitly passed empty/zero value is falsy in Python and behaves as the
absent case, so options model both). -/
structure ProvisionArgs where
  session_name : String := "default"
  role : Option String := none
  port : Option Nat := none
  hardened : Bool := true
  ttl : Option Nat := none
  volume_mounts : List String := []
  token : Option Token := none
  llm_provider : String := "claude"
  llm_model : Option String := none
  ollama_host : Option String := none
  workspace_profile : Option String := none
  workspace_home : Option Mounts.Path := none

/-- Outcomes of the external calls `provision` makes, in program order. -/
structure ProvisionWorld where
  runningPorts : List Nat
  scanOk : Bool
  imageOk : Bool
  repoDigests : List String
  keyFileExists : Bool
  cosignTool : Cosign.ToolResult
  oldContainerFound : Bool
  oldRemoveOk : Bool
  createOk : Bool
  nowMs : Nat
  osWorkspaceProfile : String
  fs : Mounts.FS
  osEnv : Mounts.Env
  realHome : Mounts.Path
  cacheOf : String → Mounts.Path → Mounts.Env

/-- Rendering of a component path for use as a `volumes` dict key. -/
def pathStr (p : Mounts.Path) : String := String.intercalate "/" p

/-- The user-supplied `host:container[:mode]` volume parsing loop. -/
def parseVolumeMounts (vols : List String)
    (volumes : List (String × Hardening.VolumeBind)) :
    List (String × Hardening.VolumeBind) :=
  vols.foldl
    (fun acc vol =>
      match vol.splitOn ":" with
      | host :: cont :: rest => upsertA acc host ⟨cont, rest.headD "rw"⟩
      | _ => acc)
    volumes

/-- The `_bind_to_name` dict. -/
def _bind_to_name (bind : String) : Option String :=
  if bind = "/home/developer/.aws" then some "aws"
  else if bind = "/home/developer/.azure" then some "azure"
  else if bind = "/home/developer/.kube" then some "kube"
  else if bind = "/home/developer/.ssh" then some "ssh"
  else if bind = "/home/developer/.gitconfig" then some "gitconfig"
  else if bind = "/home/developer/.gcloud" then some "gcloud"
  else if bind = "/home/developer/.terraform.d" then some "terraform"
  else none

/-- Python `set.add`. -/
def addToSet (s : List String) (x : String) : List String :=
  if s.contains x then s else s ++ [x]

/-- The loop populating `ctx.profile_mounts` from the resolved mounts. -/
def trackMounts (profMounts : List (Mounts.Path × Hardening.VolumeBind)) :
    List String :=
  profMounts.foldl
    (fun acc kv =>
      match _bind_to_name kv.2.bind with
      | some n => addToSet acc n
      | none => acc)
    []

/-- The full `volumes` dict: per-session data volume, then user-supplied
mounts, then the profile credential mounts (`volumes.update(...)`). -/
def buildVolumes (st : Settings) (args : ProvisionArgs)
    (profMounts : List (Mounts.Path × Hardening.VolumeBind)) :
    List (String × Hardening.VolumeBind) :=
  let base := [(pathStr (st.sessions_dir ++ [args.session_name]),
    (⟨"/home/developer/.claude/projects", "rw"⟩ : Hardening.VolumeBind))]
  let withUser := parseVolumeMounts args.volume_mounts base
  profMounts.foldl (fun acc kv => upsertA acc (pathStr kv.1) kv.2) withUser

/-- The `containers.create` keyword dict `provision` assembles, including
the mutually exclusive hardened/legacy fragment selection
(lifecycle.py lines 503-561). -/
def buildCreateKwargs (st : Settings) (w : ProvisionWorld)
    (args : ProvisionArgs) (resolved_image container_name : String)
    (resolved_port : Nat) (resolved_role : String)
    (profMounts : List (Mounts.Path × Hardening.VolumeBind)) :
    Hardening.CreateKwargs :=
  let base : Hardening.CreateKwargs := {
    image := resolved_image
    name := container_name
    command := ["sleep", "infinity"]
    ports := [("7681/tcp", ("127.0.0.1", resolved_port))]
    labels := [
      ("brainbox.managed", "true"),
      ("brainbox.role", resolved_role),
      ("brainbox.llm_provider", args.llm_provider),
      ("brainbox.llm_model", args.llm_model.getD ""),
      ("brainbox.workspace_profile",
        (args.workspace_profile.getD w.osWorkspaceProfile).toUpper)]
    detach := true
    volumes := buildVolumes st args profMounts }
  if args.hardened then
    Hardening.get_hardening_kwargs st.hardening st.resources st.user base
  else
    Hardening.get_legacy_kwargs base

/-- Embedding of `provision(...)` (lifecycle.py lines 442-581). -/
def provision (reg : Registry) (st : Settings) (w : ProvisionWorld)
    (args : ProvisionArgs) : PhaseOut :=
  let resolved_role := args.role.getD st.role
  let resolvedPfx :=
    if st.containerPfx = "" then resolved_role ++ "-" else st.containerPfx
  let resolved_image :=
    if st.image = "" then "brainbox-" ++ resolved_role else st.image
  let container_name := resolvedPfx ++ args.session_name
  let resolved_port :=
    match args.port with
    | some p =>
      if p = 0 then _find_available_port w.runningPorts w.scanOk 7681 else p
    | none => _find_available_port w.runningPorts w.scanOk 7681
  let resolved_ttl := args.ttl.getD st.ttl
  let ctx : SessionContext := {
    session_name := args.session_name
    container_name := container_name
    port := resolved_port
    role := resolved_role
    state := SessionState.provisioning
    created_at := w.nowMs
    ttl := resolved_ttl
    hardened := args.hardened
    volume_mounts := args.volume_mounts
    secrets := []
    health_failures := 0
    token := args.token
    env_content := none
    llm_provider := args.llm_provider
    llm_model := args.llm_model
    ollama_host := args.ollama_host
    profile_mounts := [] }
  if ¬w.imageOk then
    ⟨reg, Except.error Err.imageMissing, [SessionState.provisioning]⟩
  else
    match (Cosign._verify_cosign st.cosign w.keyFileExists w.repoDigests
        w.cosignTool resolved_image).result with
    | Except.error e =>
      ⟨reg, Except.error (Err.cosign e), [SessionState.provisioning]⟩
    | Except.ok _ =>
      if w.oldContainerFound ∧ ¬w.oldRemoveOk then
        ⟨reg, Except.error Err.engine, [SessionState.provisioning]⟩
      else
        let profMounts := Mounts._resolve_profile_mounts st.profile w.fs
          w.osEnv w.realHome w.cacheOf args.workspace_profile
          args.workspace_home
        let ctx2 := { ctx with profile_mounts := trackMounts profMounts }
        -- buildCreateKwargs is the spec `containers.create` receives
        let _kwargs := buildCreateKwargs st w args resolved_image
          container_name resolved_port resolved_role profMounts
        if ¬w.createOk then
          ⟨reg, Except.error Err.engine, [SessionState.provisioning]⟩
        else
          let ctx3 := { ctx2 with state := SessionState.configuring }
          ⟨upsertA reg args.session_name ctx3, Except.ok ctx3,
            [SessionState.provisioning, SessionState.configuring]⟩

/-- A quoted JSON string (escaping of embedded quotes is not modelled;
no claim depends on it). -/
def jsonStr (s : String) : String := "\"" ++ s ++ "\""

/-- Rendering of `ctx.token.model_dump_json()`. -/
def tokenJsonStr (t : Token) : String :=
  "\x7b" ++ jsonStr "token_id" ++ ":" ++ jsonStr t.token_id ++ "," ++
    jsonStr "agent_name" ++ ":" ++ jsonStr t.agent_name ++ "," ++
    jsonStr "task_id" ++ ":" ++ jsonStr t.task_id ++ "," ++
    jsonStr "capabilities" ++ ":[" ++
    String.intercalate "," (t.capabilities.map jsonStr) ++ "]," ++
    jsonStr "issued" ++ ":" ++ toString t.issued ++ "," ++
    jsonStr "expiry" ++ ":" ++ toString t.expiry ++ "\x7d"

/-- Rendering of the stub `json.dumps(...)` placeholder token. -/
def stubTokenJson (isoNow : String) : String :=
  "\x7b\"stub\": true, \"issued\": " ++ jsonStr isoNow ++
    ", \"note\": \"Use hub API to get a real token\"\x7d"

/-- Python `dict.update`: fold the new bindings in, overwriting. -/
def updateAll (base new : List (String × String)) :
    List (String × String) :=
  new.foldl (fun acc kv => upsertA acc kv.1 kv.2) base

/-- The consolidated legacy env blob
`"\n".join(f"export k=v" for ...)`. -/
def envBlob (resolved : List (String × String)) : String :=
  String.intercalate "\n"
    (resolved.map (fun kv => "export " ++ kv.1 ++ "=" ++ kv.2))

/-- Outcomes of the external calls `configure` makes. -/
structure ConfigureWorld where
  /-- result of `resolve_secrets()` (1Password or plaintext files). -/
  secretsResult : Except String (List (String × String))
  /-- `_iso_now()` for the stub token. -/
  isoNow : String

/-- Embedding of `configure(ctx_or_name)` (lifecycle.py lines 589-631). -/
def configure (reg : Registry) (st : Settings) (w : ConfigureWorld)
    (c : Sum String SessionContext) : PhaseOut :=
  match _resolve reg c with
  | Except.error e => ⟨reg, Except.error e, []⟩
  | Except.ok ctx =>
    let ctx1 := { ctx with state := SessionState.configuring }
    let reg1 := writeback reg ctx1
    match w.secretsResult with
    | Except.error msg =>
      ⟨reg1, Except.error (Err.resolutionFailed msg),
        [SessionState.configuring]⟩
    | Except.ok resolved0 =>
      let resolved :=
        if ctx1.llm_provider = "ollama" then
          upsertA (upsertA (upsertA (upsertA resolved0
            "ANTHROPIC_AUTH_TOKEN" "ollama")
            "ANTHROPIC_API_KEY" "")
            "ANTHROPIC_BASE_URL" (ctx1.ollama_host.getD st.ollama_host))
            "CLAUDE_MODEL" (ctx1.llm_model.getD st.ollama_model)
        else resolved0
      let ctx2 := { ctx1 with secrets := updateAll ctx1.secrets resolved }
      let ctx3 :=
        if ¬ctx2.hardened then
          { ctx2 with env_content := some (envBlob resolved) }
        else ctx2
      let tokenVal :=
        match ctx3.token with
        | some t => tokenJsonStr t
        | none => stubTokenJson w.isoNow
      let ctx4 :=
        { ctx3 with secrets := upsertA ctx3.secrets "agent-token" tokenVal }
      let ctx5 := { ctx4 with state := SessionState.starting }
      ⟨writeback reg1 ctx5, Except.ok ctx5,
        [SessionState.configuring, SessionState.starting]⟩

/-- Outcomes of the fatal external calls `start` makes.  Every other
engine call in `start` (per-secret writes, env/token files, onboarding
patches, ttyd launch, profile-env injection) sits inside a
`try/except` that only logs, so their outcomes cannot change the phase
result and are not inputs of the model. -/
structure StartWorld where
  /-- `client.containers.get(ctx.container_name)` succeeded. -/
  getOk : Bool
  /-- `container.start()` succeeded. -/
  startOk : Bool

/-- Embedding of `start(ctx_or_name)` (lifecycle.py lines 639-803).
After the best-effort injection blocks, line 767 evaluates
`ctx.workspace_profile`; `SessionContext` declares no such field (the
constructor's extra kwargs were dropped), so the phase raises
AttributeError there — before `ctx.state = RUNNING` on line 801.  The
remainder of the phase (profile-env write, state advance to RUNNING) is
unreachable. -/
def start (reg : Registry) (w : StartWorld)
    (c : Sum String SessionContext) : PhaseOut :=
  match _resolve reg c with
  | Except.error e => ⟨reg, Except.error e, []⟩
  | Except.ok ctx =>
    let ctx1 := { ctx with state := SessionState.starting }
    let reg1 := writeback reg ctx1
    if ¬w.getOk then ⟨reg1, Except.error Err.engine, [SessionState.starting]⟩
    else if ¬w.startOk then
      ⟨reg1, Except.error Err.engine, [SessionState.starting]⟩
    else
      ⟨reg1, Except.error (Err.attributeMissing "workspace_profile"),
        [SessionState.starting]⟩

/-- What `start` would do from line 767 onward if the context carried the
`workspace_profile` field the constructor call and the repository's own
tests expect (`test_provision_stores_workspace_fields_on_ctx` asserts
`ctx.workspace_profile` is stored): the profile-env injection is
best-effort, and the phase advances to RUNNING.  Used to state the
intended behaviour next to the actual one. -/
def startIntended (reg : Registry) (w : StartWorld)
    (c : Sum String SessionContext) : PhaseOut :=
  match _resolve reg c with
  | Except.error e => ⟨reg, Except.error e, []⟩
  | Except.ok ctx =>
    let ctx1 := { ctx with state := SessionState.starting }
    let reg1 := writeback reg ctx1
    if ¬w.getOk then ⟨reg1, Except.error Err.engine, [SessionState.starting]⟩
    else if ¬w.startOk then
      ⟨reg1, Except.error Err.engine, [SessionState.starting]⟩
    else
      let ctx2 := { ctx1 with state := SessionState.running }
      ⟨writeback reg1 ctx2, Except.ok ctx2,
        [SessionState.starting, SessionState.running]⟩

/-- Embedding of `monitor(ctx_or_name)` (lifecycle.py lines 811-819).
`start_monitoring` hands the session to the external TTL/health watcher
(outside this core) and is modelled as succeeding. -/
def monitorPhase (reg : Registry) (c : Sum String SessionContext) :
    PhaseOut :=
  match _resolve reg c with
  | Except.error e => ⟨reg, Except.error e, []⟩
  | Except.ok ctx =>
    let ctx1 := { ctx with state := SessionState.monitoring }
    ⟨writeback reg ctx1, Except.ok ctx1, [SessionState.monitoring]⟩

/-- Embedding of `recycle(ctx_or_name, reason)` (lifecycle.py lines
827-852).  `stop_monitoring` is external; both container stop/remove
blocks swallow every engine error, so no external outcome can change the
result: the state is advanced to RECYCLING, then RECYCLED, and the
session is popped from the registry. -/
def recycle (reg : Registry) (c : Sum String SessionContext) : PhaseOut :=
  match _resolve reg c with
  | Except.error e => ⟨reg, Except.error e, []⟩
  | Except.ok ctx =>
    let ctx1 := { ctx with state := SessionState.recycling }
    let reg1 := writeback reg ctx1
    let ctx2 := { ctx1 with state := SessionState.recycled }
    let reg2 := writeback reg1 ctx2
    ⟨removeA reg2 ctx2.session_name, Except.ok ctx2,
      [SessionState.recycling, SessionState.recycled]⟩

/-- External-call outcomes for a whole pipeline run. -/
structure PipelineWorld where
  prov : ProvisionWorld
  conf : ConfigureWorld
  strt : StartWorld

/-- Embedding of `run_pipeline(...)` (lifecycle.py lines 860-892):
provision, then configure, start and monitor on the returned context,
stopping at the first raised exception.  `stateWrites` concatenates the
`ctx.state` assignments of the executed phases in order. -/
def run_pipeline (reg : Registry) (st : Settings) (w : PipelineWorld)
    (args : ProvisionArgs) : PhaseOut :=
  let p1 := provision reg st w.prov args
  match p1.result with
  | Except.error e => ⟨p1.registry, Except.error e, p1.stateWrites⟩
  | Except.ok ctx1 =>
    let p2 := configure p1.registry st w.conf (Sum.inr ctx1)
    match p2.result with
    | Except.error e =>
      ⟨p2.registry, Except.error e, p1.stateWrites ++ p2.stateWrites⟩
    | Except.ok ctx2 =>
      let p3 := start p2.registry w.strt (Sum.inr ctx2)
      match p3.result with
      | Except.error e =>
        ⟨p3.registry, Except.error e,
          p1.stateWrites ++ p2.stateWrites ++ p3.stateWrites⟩
      | Except.ok ctx3 =>
        let p4 := monitorPhase p3.registry (Sum.inr ctx3)
        ⟨p4.registry, p4.result,
          p1.stateWrites ++ p2.stateWrites ++ p3.stateWrites ++
            p4.stateWrites⟩

/-- The intended pipeline: identical to `run_pipeline` except that the
start phase completes as the spec and the repository's tests expect. -/
def run_pipelineIntended (reg : Registry) (st : Settings)
    (w : PipelineWorld) (args : ProvisionArgs) : PhaseOut :=
  let p1 := provision reg st w.prov args
  match p1.result with
  | Except.error e => ⟨p1.registry, Except.error e, p1.stateWrites⟩
  | Except.ok ctx1 =>
    let p2 := configure p1.registry st w.conf (Sum.inr ctx1)
    match p2.result with
    | Except.error e =>
      ⟨p2.registry, Except.error e, p1.stateWrites ++ p2.stateWrites⟩
    | Except.ok ctx2 =>
      let p3 := startIntended p2.registry w.strt (Sum.inr ctx2)
      match p3.result with
      | Except.error e =>
        ⟨p3.registry, Except.error e,
          p1.stateWrites ++ p2.stateWrites ++ p3.stateWrites⟩
      | Except.ok ctx3 =>
        let p4 := monitorPhase p3.registry (Sum.inr ctx3)
        ⟨p4.registry, p4.result,
          p1.stateWrites ++ p2.stateWrites ++ p3.stateWrites ++
            p4.stateWrites⟩

end Lifecycle

/-!
Concrete sample values used by witnesses and counterexamples.  The
settings mirror the defaults of `config.py` (resources, hardening caps)
with cosign off and all profile mounts disabled.
-/

namespace Samples

open Lifecycle

def sampleSettings : Settings := {
  role := "developer"
  containerPfx := "developer-"
  image := "developer"
  ttl := 3600
  user := "65534:65534"
  sessions_dir := ["", "var", "brainbox", "sessions"]
  cosign := Cosign.CosignSettings.mk "off" "" "" ""
  hardening := Hardening.HardeningSettings.mk true true
    ["NET_RAW", "SYS_ADMIN", "MKNOD", "SYS_CHROOT", "NET_ADMIN"]
  resources := Hardening.ResourceSettings.mk "2g" 2000000000 "500M" "100M"
    "10M"
  profile := Mounts.ProfileSettings.mk false false false false false false
    false
  ollama_host := "http://localhost:11434"
  ollama_model := "qwen3-coder" }

/-- A provision world where every external call succeeds and no container
is currently running (no published ports). -/
def sampleProvWorld : ProvisionWorld := {
  runningPorts := []
  scanOk := true
  imageOk := true
  repoDigests := ["developer@sha256:aa"]
  keyFileExists := true
  cosignTool := Cosign.ToolResult.mk true "developer@sha256:aa" "" ""
  oldContainerFound := false
  oldRemoveOk := true
  createOk := true
  nowMs := 1760000000000
  osWorkspaceProfile := ""
  fs := Mounts.FS.mk [] []
  osEnv := []
  realHome := ["", "Users", "host"]
  cacheOf := fun _ _ => [] }

def sampleConfWorld : ConfigureWorld :=
  ConfigureWorld.mk (Except.ok [("GITHUB_TOKEN", "t0")])
    "2026-10-12T00:00:00+00:00"

def sampleStartWorld : StartWorld := StartWorld.mk true true

def samplePipelineWorld : PipelineWorld :=
  PipelineWorld.mk sampleProvWorld sampleConfWorld sampleStartWorld

/-- A registered session context used by recycle scenarios. -/
def demoCtx : SessionContext := {
  session_name := "s"
  container_name := "developer-s"
  port := 7681
  role := "developer"
  state := SessionState.configuring
  created_at := 0
  ttl := 3600
  hardened := true
  volume_mounts := []
  secrets := []
  health_failures := 0
  token := none
  env_content := none
  llm_provider := "claude"
  llm_model := none
  ollama_host := none
  profile_mounts := [] }

end Samples

/-!
Theorems for the frozen claims.
-/

section Claims

open Secrets Cosign Hardening Mounts Lifecycle Samples

theorem lookupA_upsertA_self {κ α : Type} [DecidableEq κ] (m : List (κ × α))
    (k : κ) (v : α) : lookupA (upsertA m k v) k = some v := by
  induction m with
  | nil => simp [upsertA, lookupA]
  | cons hd tl ih =>
    obtain ⟨k', v'⟩ := hd
    by_cases h : k' = k <;> simp [upsertA, lookupA, h, ih]

theorem lookupA_removeA_self {κ α : Type} [DecidableEq κ] (m : List (κ × α))
    (k : κ) : lookupA (removeA m k) k = none := by
  induction m with
  | nil => simp [removeA, lookupA]
  | cons hd tl ih =>
    obtain ⟨k', v'⟩ := hd
    by_cases h : k' = k <;> simp [removeA, lookupA, h, List.filter] at ih ⊢ <;>
      simpa [removeA, h] using ih

/-- Every binding of `upsertA m k v` is the new pair or came from `m`. -/
theorem mem_upsertA {κ α : Type} [DecidableEq κ] {m : List (κ × α)} {k : κ}
    {v : α} {x : κ × α} (hx : x ∈ upsertA m k v) : x = (k, v) ∨ x ∈ m := by
  induction m with
  | nil => simpa [upsertA] using hx
  | cons hd tl ih =>
    obtain ⟨k', v'⟩ := hd
    by_cases h : k' = k
    · simp only [upsertA, if_pos h, List.mem_cons] at hx
      rcases hx with h1 | h2
      · exact Or.inl h1
      · exact Or.inr (List.mem_cons_of_mem _ h2)
    · simp only [upsertA, if_neg h, List.mem_cons] at hx
      rcases hx with h1 | h2
      · exact Or.inr (by simp [h1])
      · rcases ih h2 with h3 | h4
        · exact Or.inl h3
        · exact Or.inr (List.mem_cons_of_mem _ h4)

/-- Helper for C5: once an item whose `op item get` call fails is in the
work list, the item fold ends in an error, whatever was accumulated. -/
theorem resolveItems_error_of_mem
    (opGet : String → Except String (List OpField)) :
    ∀ (items : List ItemSummary) (acc : List (String × String))
      (s : ItemSummary) (e : String), s ∈ items →
      opGet s.itemId = Except.error e →
      ∃ e2, resolveItems opGet items acc = Except.error e2 := by
  intro items
  induction items with
  | nil => intro acc s e hs _; exact absurd hs (List.not_mem_nil s)
  | cons a rest ih =>
    intro acc s e hs he
    rcases List.mem_cons.mp hs with h1 | h2
    · subst h1
      rw [resolveItems, he]
      exact ⟨e, rfl⟩
    · cases hget : opGet a.itemId with
      | error e3 => rw [resolveItems, hget]; exact ⟨e3, rfl⟩
      | ok fields =>
        rw [resolveItems, hget]
        exact ih _ s e h2 he

/-- C5: the vault secret-resolution strategy fails closed — if the
`op item list` call errors, or the `op item get` call for any listed item
errors, `resolve_from_op` returns an error and never a (partial)
name→value map. -/
theorem vault_resolution_fails_closed
    (opList : Except String (List ItemSummary))
    (opGet : String → Except String (List OpField)) :
    (∀ e, opList = Except.error e →
      resolve_from_op opList opGet = Except.error e) ∧
    (∀ items s e, opList = Except.ok items → s ∈ items →
      opGet s.itemId = Except.error e →
      ∃ e2, resolve_from_op opList opGet = Except.error e2) := by
  constructor
  · intro e h; rw [h]; rfl
  · intro items s e hlist hs he
    rw [hlist]
    have hne : items ≠ [] := by
      intro h0; rw [h0] at hs; exact absurd hs (List.not_mem_nil s)
    rw [resolve_from_op, if_neg hne]
    exact resolveItems_error_of_mem opGet items [] s e hs he

/-- C5 witness: a failing list call propagates its error, and a failing
per-item get call aborts the whole resolution. -/
theorem vault_resolution_fails_closed_witness :
    (resolve_from_op (Except.error "op item list failed")
      (fun _ => Except.ok []) = Except.error "op item list failed") ∧
    (∃ e2, resolve_from_op
      (Except.ok [ItemSummary.mk "item1" none, ItemSummary.mk "item2" none])
      (fun i => if i = "item2" then Except.error "op item get failed"
        else Except.ok [OpField.mk "f" "STRING" "user" "v"]) =
      Except.error e2) := by
  constructor
  · exact (vault_resolution_fails_closed _ _).1 _ rfl
  · exact (vault_resolution_fails_closed _ _).2
      [ItemSummary.mk "item1" none, ItemSummary.mk "item2" none]
      (ItemSummary.mk "item2" none) "op item get failed" rfl
      (by simp) (by simp)

/-- C7: in warn mode, `_verify_cosign` never raises to its caller —
whatever the external tool's reported outcome, whether the configured key
file exists, and whatever the digest list, the phase returns normally. -/
theorem warn_mode_never_raises (s : CosignSettings) (keyFileExists : Bool)
    (repoDigests : List String) (tool : ToolResult) (image_name : String)
    (hmode : s.mode = "warn") :
    (_verify_cosign s keyFileExists repoDigests tool image_name).result =
      Except.ok () := by
  rw [_verify_cosign, hmode]
  simp only [String.reduceEq, reduceIte]
  repeat' first
    | rfl
    | (split <;> try rfl)

/-- C7 witness: warn mode with a failing tool outcome, a configured but
missing key file, and a digest present still returns normally. -/
theorem warn_mode_never_raises_witness :
    (_verify_cosign (CosignSettings.mk "warn" "/k.pub" "" "") false
      ["img@sha256:aa"] (ToolResult.mk false "img@sha256:aa" "" "bad sig")
      "img").result = Except.ok () :=
  warn_mode_never_raises _ _ _ _ _ rfl

/-- C6: in enforce mode `_verify_cosign` raises before the external tool
is ever invoked when (1) neither a key nor a keyless identity+issuer is
configured, (2) the key-based strategy is selected and the configured key
file is missing on disk, (3) a strategy is available but the image has an
empty registry-digest list. -/
theorem enforce_mode_precondition_raises (s : CosignSettings)
    (keyFileExists : Bool) (repoDigests : List String) (tool : ToolResult)
    (image_name : String) (hmode : s.mode = "enforce") :
    ((s.certificate_identity = "" ∨ s.oidc_issuer = "") → s.key = "" →
      _verify_cosign s keyFileExists repoDigests tool image_name =
        ⟨false, Except.error VerifyErr.configError⟩) ∧
    ((s.certificate_identity = "" ∨ s.oidc_issuer = "") → s.key ≠ "" →
      keyFileExists = false →
      _verify_cosign s keyFileExists repoDigests tool image_name =
        ⟨false, Except.error (VerifyErr.keyNotFound s.key)⟩) ∧
    (((s.certificate_identity ≠ "" ∧ s.oidc_issuer ≠ "") ∨
        (s.key ≠ "" ∧ keyFileExists = true)) → repoDigests = [] →
      _verify_cosign s keyFileExists repoDigests tool image_name =
        ⟨false, Except.error (VerifyErr.noDigests image_name)⟩) := by
  refine ⟨?_, ?_, ?_⟩
  · intro hkl hkey
    rw [_verify_cosign, hmode]
    rcases hkl with h | h <;> simp [h, hkey]
  · intro hkl hkey hfile
    subst hfile
    rw [_verify_cosign, hmode]
    rcases hkl with h | h <;> simp [h, hkey]
  · intro hstrat hdig
    subst hdig
    rw [_verify_cosign, hmode]
    rcases hstrat with ⟨h1, h2⟩ | ⟨h1, h2⟩
    · simp [h1, h2]
    · subst h2; simp [h1]

/-- C6 witness: the three enforce-mode precondition failures at concrete
configurations, each raising with the tool uninvoked. -/
theorem enforce_mode_precondition_raises_witness :
    (_verify_cosign (CosignSettings.mk "enforce" "" "" "") true
      ["img@sha256:aa"] (ToolResult.mk true "r" "" "") "img" =
      ⟨false, Except.error VerifyErr.configError⟩) ∧
    (_verify_cosign (CosignSettings.mk "enforce" "/k.pub" "" "") false
      ["img@sha256:aa"] (ToolResult.mk true "r" "" "") "img" =
      ⟨false, Except.error (VerifyErr.keyNotFound "/k.pub")⟩) ∧
    (_verify_cosign (CosignSettings.mk "enforce" "/k.pub" "" "") true
      [] (ToolResult.mk true "r" "" "") "img" =
      ⟨false, Except.error (VerifyErr.noDigests "img")⟩) := by
  refine ⟨?_, ?_, ?_⟩
  · exact (enforce_mode_precondition_raises _ _ _ _ _ rfl).1
      (Or.inl rfl) rfl
  · exact (enforce_mode_precondition_raises _ _ _ _ _ rfl).2.1
      (Or.inl rfl) (by simp) rfl
  · exact (enforce_mode_precondition_raises _ _ _ _ _ rfl).2.2
      (Or.inr ⟨by simp, rfl⟩) rfl

/-- C4: for every provision call exactly one of the two disjoint
container-spec fragments is applied, selected by the `hardened` flag.
Hardened (with the configured read-only-rootfs and no-new-privileges
toggles on, their defaults) yields a read-only root filesystem, the
configured capability-drop list, memory and CPU limits, the
workspace/tmp/secrets tmpfs mounts, no-new-privileges, and no host IPC
sharing; non-hardened yields host IPC sharing and none of the hardened
restrictions — in particular no read-only flag. -/
theorem hardened_legacy_mutually_exclusive (st : Settings)
    (w : ProvisionWorld) (args : ProvisionArgs) (img cname : String)
    (port : Nat) (role : String)
    (profMounts : List (Mounts.Path × VolumeBind))
    (hro : st.hardening.read_only_rootfs = true)
    (hnnp : st.hardening.no_new_privileges = true) :
    (args.hardened = true →
      (buildCreateKwargs st w args img cname port role
        profMounts).read_only = some true ∧
      (buildCreateKwargs st w args img cname port role
        profMounts).cap_drop = some st.hardening.drop_caps ∧
      (buildCreateKwargs st w args img cname port role
        profMounts).mem_limit = some st.resources.memory ∧
      (buildCreateKwargs st w args img cname port role
        profMounts).nano_cpus = some st.resources.cpusNanos ∧
      (buildCreateKwargs st w args img cname port role
        profMounts).tmpfs = some
          [("/workspace", "size=" ++ st.resources.tmpfs_workspace),
           ("/tmp", "size=" ++ st.resources.tmpfs_tmp)] ∧
      (buildCreateKwargs st w args img cname port role
        profMounts).mounts = some
          [⟨"/run/secrets", _parse_tmpfs_size st.resources.tmpfs_secrets,
            0o400⟩,
           ⟨"/run/profile", _parse_tmpfs_size "1M", 0o644⟩] ∧
      (buildCreateKwargs st w args img cname port role
        profMounts).security_opt = some ["no-new-privileges:true"] ∧
      (buildCreateKwargs st w args img cname port role
        profMounts).ipc_mode = none) ∧
    (args.hardened = false →
      (buildCreateKwargs st w args img cname port role
        profMounts).ipc_mode = some "host" ∧
      (buildCreateKwargs st w args img cname port role
        profMounts).read_only = none ∧
      (buildCreateKwargs st w args img cname port role
        profMounts).cap_drop = none ∧
      (buildCreateKwargs st w args img cname port role
        profMounts).mem_limit = none ∧
      (buildCreateKwargs st w args img cname port role
        profMounts).nano_cpus = none ∧
      (buildCreateKwargs st w args img cname port role
        profMounts).user = none ∧
      (buildCreateKwargs st w args img cname port role
        profMounts).tmpfs = none ∧
      (buildCreateKwargs st w args img cname port role
        profMounts).mounts = none ∧
      (buildCreateKwargs st w args img cname port role
        profMounts).security_opt = none) := by
  constructor
  · intro h
    simp [buildCreateKwargs, h, Hardening.get_hardening_kwargs, hnnp, hro]
  · intro h
    simp [buildCreateKwargs, h, Hardening.get_legacy_kwargs]

/-- C4 witness: the hardened and legacy fragments at the default
settings, exercised through both branches of the selection. -/
theorem hardened_legacy_mutually_exclusive_witness :
    ((buildCreateKwargs sampleSettings sampleProvWorld
      { session_name := "demo", hardened := true } "developer"
      "developer-demo" 7681 "developer" []).read_only = some true ∧
     (buildCreateKwargs sampleSettings sampleProvWorld
      { session_name := "demo", hardened := true } "developer"
      "developer-demo" 7681 "developer" []).ipc_mode = none) ∧
    ((buildCreateKwargs sampleSettings sampleProvWorld
      { session_name := "demo", hardened := false } "developer"
      "developer-demo" 7681 "developer" []).ipc_mode = some "host" ∧
     (buildCreateKwargs sampleSettings sampleProvWorld
      { session_name := "demo", hardened := false } "developer"
      "developer-demo" 7681 "developer" []).read_only = none) := by
  have h1 := (hardened_legacy_mutually_exclusive sampleSettings
    sampleProvWorld { session_name := "demo", hardened := true }
    "developer" "developer-demo" 7681 "developer" [] rfl rfl).1 rfl
  have h2 := (hardened_legacy_mutually_exclusive sampleSettings
    sampleProvWorld { session_name := "demo", hardened := false }
    "developer" "developer-demo" 7681 "developer" [] rfl rfl).2 rfl
  exact ⟨⟨h1.1, h1.2.2.2.2.2.2.2⟩, ⟨h2.1, h2.2.1⟩⟩

/-- C10: for every session name absent from the registry, invoking
configure, start, monitor, or recycle with that name raises the
not-found ValueError and leaves the registry unchanged. -/
theorem unknown_session_raises (reg : Registry) (st : Settings)
    (cw : ConfigureWorld) (sw : StartWorld) (name : String)
    (h : lookupA reg name = none) :
    configure reg st cw (Sum.inl name) =
      ⟨reg, Except.error (Err.sessionNotFound name), []⟩ ∧
    start reg sw (Sum.inl name) =
      ⟨reg, Except.error (Err.sessionNotFound name), []⟩ ∧
    monitorPhase reg (Sum.inl name) =
      ⟨reg, Except.error (Err.sessionNotFound name), []⟩ ∧
    recycle reg (Sum.inl name) =
      ⟨reg, Except.error (Err.sessionNotFound name), []⟩ := by
  refine ⟨?_, ?_, ?_, ?_⟩ <;>
    simp [configure, start, monitorPhase, recycle, _resolve, h]

/-- C10 witness: the four phases on an unknown name against a registry
holding a different session. -/
theorem unknown_session_raises_witness :
    configure [("s", demoCtx)] sampleSettings sampleConfWorld
      (Sum.inl "ghost") =
      ⟨[("s", demoCtx)], Except.error (Err.sessionNotFound "ghost"), []⟩ ∧
    start [("s", demoCtx)] sampleStartWorld (Sum.inl "ghost") =
      ⟨[("s", demoCtx)], Except.error (Err.sessionNotFound "ghost"), []⟩ ∧
    monitorPhase [("s", demoCtx)] (Sum.inl "ghost") =
      ⟨[("s", demoCtx)], Except.error (Err.sessionNotFound "ghost"), []⟩ ∧
    recycle [("s", demoCtx)] (Sum.inl "ghost") =
      ⟨[("s", demoCtx)], Except.error (Err.sessionNotFound "ghost"), []⟩ :=
  unknown_session_raises [("s", demoCtx)] sampleSettings sampleConfWorld
    sampleStartWorld "ghost" (by simp [lookupA, demoCtx])

/-- C2 counterexample: with one session registered under name `s`, the
first `recycle("s")` succeeds and removes it, but the second
`recycle("s")` raises the not-found ValueError — so recycle is not
idempotent on a session *name*, refuting the claim as stated. -/
theorem recycle_twice_by_name_raises :
    (∃ c1, (recycle [("s", demoCtx)] (Sum.inl "s")).result =
      Except.ok c1) ∧
    (recycle (recycle [("s", demoCtx)] (Sum.inl "s")).registry
      (Sum.inl "s")).result =
      Except.error (Err.sessionNotFound "s") :=
  ⟨⟨_, rfl⟩, rfl⟩

/-- C2 amended: recycle is idempotent on the SessionContext object —
calling recycle twice in succession with the same context raises on
neither call, and after both calls the session name is absent from the
registry (a second call that passes the *name* instead raises ValueError,
since the first call removed the registry entry). -/
theorem recycle_object_idempotent (reg : Registry)
    (ctx : SessionContext) :
    (∃ c1, (recycle reg (Sum.inr ctx)).result = Except.ok c1) ∧
    lookupA (recycle reg (Sum.inr ctx)).registry ctx.session_name =
      none ∧
    (∃ c2, (recycle (recycle reg (Sum.inr ctx)).registry
      (Sum.inr ctx)).result = Except.ok c2) ∧
    lookupA (recycle (recycle reg (Sum.inr ctx)).registry
      (Sum.inr ctx)).registry ctx.session_name = none := by
  refine ⟨⟨_, rfl⟩, ?_, ⟨_, rfl⟩, ?_⟩ <;>
    simp [recycle, _resolve, lookupA_removeA_self]

/-- Strictly fewer members of `l` are at least `p + 1` than at least `p`
once `p` itself is a member. -/
theorem filter_ge_succ_lt (l : List Nat) (p : Nat) (hp : p ∈ l) :
    (l.filter (fun x => decide (p + 1 ≤ x))).length <
      (l.filter (fun x => decide (p ≤ x))).length := by
  induction l with
  | nil => exact absurd hp (List.not_mem_nil p)
  | cons a rest ih =>
    rcases List.mem_cons.mp hp with h1 | h2
    · subst h1
      have hmono : (rest.filter (fun x => decide (p + 1 ≤ x))).length ≤
          (rest.filter (fun x => decide (p ≤ x))).length := by
        have hsub : List.Sublist
            (rest.filter (fun x => decide (p + 1 ≤ x)))
            (rest.filter (fun x => decide (p ≤ x))) := by
          apply List.monotone_filter_right
          intro x hx
          simp only [decide_eq_true_eq] at hx ⊢
          omega
        exact hsub.length_le
      simp only [List.filter_cons]
      have hx1 : decide (p ≤ p) = true := by simp
      have hx2 : decide (p + 1 ≤ p) = false := by simp
      rw [hx1, hx2]
      simpa using Nat.lt_succ_of_le hmono
    · by_cases ha : p ≤ a
      · by_cases hb : p + 1 ≤ a
        · simp only [List.filter_cons, decide_eq_true_eq, ha, hb,
            if_pos, List.length_cons]
          simpa using ih h2
        · have hap : a = p := by omega
          subst hap
          simp only [List.filter_cons]
          have hx1 : decide (a ≤ a) = true := by simp
          have hx2 : decide (a + 1 ≤ a) = false := by simp
          rw [hx1, hx2]
          exact Nat.lt_succ_of_le (Nat.le_of_lt (ih h2))
      · have hb : ¬(p + 1 ≤ a) := by omega
        simp only [List.filter_cons, decide_eq_true_eq, ha, hb,
          if_neg, if_false]
        exact ih h2

/-- With fuel exceeding the number of used ports at or above the start,
the scan loop lands on a port that is free, at or above the start, and
below which every port at or above the start is used. -/
theorem scanFrom_spec (used : List Nat) :
    ∀ (fuel p : Nat),
      (used.filter (fun x => decide (p ≤ x))).length < fuel →
      scanFrom used fuel p ∉ used ∧ p ≤ scanFrom used fuel p ∧
        ∀ q, p ≤ q → q < scanFrom used fuel p → q ∈ used := by
  intro fuel
  induction fuel with
  | zero => intro p h; exact absurd h (Nat.not_lt_zero _)
  | succ fuel ih =>
    intro p h
    by_cases hc : p ∈ used
    · rw [scanFrom, if_pos hc]
      have hfuel : (used.filter (fun x => decide (p + 1 ≤ x))).length <
          fuel := by
        have := filter_ge_succ_lt used p hc
        omega
      obtain ⟨h1, h2, h3⟩ := ih (p + 1) hfuel
      refine ⟨h1, by omega, ?_⟩
      intro q hq hlt
      by_cases hqp : q = p
      · subst hqp; exact hc
      · exact h3 q (by omega) hlt
    · rw [scanFrom, if_neg hc]
      exact ⟨hc, Nat.le_refl p, fun q hq hlt => absurd hlt (by omega)⟩

/-- C3 counterexample: with no container running, provisioning session
`a` and then session `b` (before `a`'s container starts) allocates port
7681 to both — two currently registered sessions with equal ports, so
ports are not pairwise distinct across the registry. -/
theorem session_port_collision :
    ((provision (provision [] sampleSettings sampleProvWorld
        { session_name := "a" }).registry sampleSettings sampleProvWorld
        { session_name := "b" }).registry.map
      (fun kv => (kv.1, kv.2.port))) = [("a", 7681), ("b", 7681)] := by
  rfl

/-- C3 amended: when provision allocates the port itself (no explicit
port argument) and the running-container scan succeeds, the allocated
port collides with no currently running container's published port and
is the lowest free port at or above 7681; pairwise distinctness across
registered sessions is not guaranteed (the scan only sees running
containers, and an explicit port argument is taken unchecked). -/
theorem provision_scan_port_spec (reg : Registry) (st : Settings)
    (w : ProvisionWorld) (args : ProvisionArgs) (ctx : SessionContext)
    (hscan : w.scanOk = true) (hport : args.port = none)
    (hok : (provision reg st w args).result = Except.ok ctx) :
    ctx.port ∉ w.runningPorts ∧ 7681 ≤ ctx.port ∧
      ∀ q, 7681 ≤ q → q < ctx.port → q ∈ w.runningPorts := by
  have hlen : (w.runningPorts.filter
      (fun x => decide (7681 ≤ x))).length < w.runningPorts.length + 1 :=
    Nat.lt_succ_of_le (List.length_filter_le _ _)
  have hspec := scanFrom_spec w.runningPorts (w.runningPorts.length + 1)
    7681 hlen
  simp only [provision, hport, hscan, _find_available_port, if_pos] at hok
  by_cases himg : w.imageOk
  · simp only [himg, not_true, if_false] at hok
    split at hok
    · exact absurd hok (by simp)
    · split at hok
      · exact absurd hok (by simp)
      · split at hok
        · exact absurd hok (by simp)
        · simp only [Except.ok.injEq] at hok
          subst hok
          exact hspec
  · simp [himg] at hok

/-- C3 witness: a concrete provision with no running container allocates
a port satisfying the scan guarantees. -/
theorem provision_scan_port_spec_witness :
    ∃ ctx, (provision [] sampleSettings sampleProvWorld
      { session_name := "a" }).result = Except.ok ctx ∧
      (ctx.port ∉ sampleProvWorld.runningPorts ∧ 7681 ≤ ctx.port ∧
        ∀ q, 7681 ≤ q → q < ctx.port → q ∈ sampleProvWorld.runningPorts) :=
  ⟨_, rfl, provision_scan_port_spec [] sampleSettings sampleProvWorld
    { session_name := "a" } _ rfl rfl rfl⟩

/-- C1 (code bug): at the spec's own end-to-end input (session `demo`,
hardened, ttl 3600) with every external call succeeding, the pipeline
raises AttributeError inside `start` — line 767 reads
`ctx.workspace_profile`, a field `SessionContext` never declares (the
constructor's extra kwargs are dropped) — so the state writes stop at
STARTING and no run ever reaches RUNNING or MONITORING.  Up to the crash
the writes are forward-only and the raising phase leaves the registered
state at its entry state (STARTING); the intended start (the field
stored, as the repository's own tests assert) yields exactly
PROVISIONING→CONFIGURING→STARTING→RUNNING→MONITORING. -/
theorem pipeline_stalls_before_running :
    (run_pipeline [] sampleSettings samplePipelineWorld
      { session_name := "demo", hardened := true, ttl := some 3600 }).result
      = Except.error (Err.attributeMissing "workspace_profile") ∧
    (run_pipeline [] sampleSettings samplePipelineWorld
      { session_name := "demo", hardened := true,
        ttl := some 3600 }).stateWrites =
      [SessionState.provisioning, SessionState.configuring,
       SessionState.configuring, SessionState.starting,
       SessionState.starting] ∧
    ((lookupA (run_pipeline [] sampleSettings samplePipelineWorld
      { session_name := "demo", hardened := true,
        ttl := some 3600 }).registry "demo").map
      (fun c => c.state)) = some SessionState.starting ∧
    (run_pipelineIntended [] sampleSettings samplePipelineWorld
      { session_name := "demo", hardened := true,
        ttl := some 3600 }).stateWrites =
      [SessionState.provisioning, SessionState.configuring,
       SessionState.configuring, SessionState.starting,
       SessionState.starting, SessionState.running,
       SessionState.monitoring] :=
  ⟨rfl, rfl, rfl, rfl⟩

/-- Helper for C9: a mount-spec row with no env vars resolves identically
under any environment source. -/
theorem resolveSpecRow_env_irrelevant (fs : FS) (src1 src2 : Env)
    (s : MountSpec) (hev : s.2.2.1 = ([] : List String)) :
    resolveSpecRow fs src1 s = resolveSpecRow fs src2 s := by
  obtain ⟨enabled, name, env_vars, fallback, up⟩ := s
  simp only at hev
  subst hev
  simp only [resolveSpecRow, findGitconfigEnv, Mounts._resolve_dir]

/-- Helper for C9: a row with no env vars can only resolve to its
fallback path. -/
theorem resolveSpecRow_no_env_key (fs : FS) (src : Env) (s : MountSpec)
    (p : Mounts.Path) (hev : s.2.2.1 = ([] : List String))
    (hres : resolveSpecRow fs src s = some p) : p = s.2.2.2.1 := by
  obtain ⟨enabled, name, env_vars, fallback, up⟩ := s
  simp only at hev
  subst hev
  simp only [resolveSpecRow, findGitconfigEnv, Mounts._resolve_dir] at hres
  split at hres
  · exact absurd hres (by simp)
  · split at hres <;> split at hres <;>
      simp_all

/-- Helper for C9: the mount loop is insensitive to the environment
source when no row has env vars. -/
theorem processSpecs_env_irrelevant (fs : FS) (src1 src2 : Env) :
    ∀ (specs : List MountSpec) (acc : List (Mounts.Path × VolumeBind)),
      (∀ s ∈ specs, s.2.2.1 = ([] : List String)) →
      processSpecs fs src1 specs acc = processSpecs fs src2 specs acc := by
  intro specs
  induction specs with
  | nil => intro acc _; rfl
  | cons s rest ih =>
    intro acc h
    have hev : s.2.2.1 = ([] : List String) := h _ (List.mem_cons_self _ _)
    have hrest : ∀ s ∈ rest, s.2.2.1 = ([] : List String) :=
      fun s hs => h s (List.mem_cons_of_mem _ hs)
    simp only [processSpecs, resolveSpecRow_env_irrelevant fs src1 src2 s hev]
    cases resolveSpecRow fs src2 s <;> exact ih _ hrest

/-- Helper for C9: with no env vars in any row, every binding produced by
the mount loop is either inherited from the accumulator or keyed by some
row's fallback path. -/
theorem processSpecs_keys_sub (fs : FS) (src : Env) :
    ∀ (specs : List MountSpec) (acc : List (Mounts.Path × VolumeBind))
      (kv : Mounts.Path × VolumeBind),
      kv ∈ processSpecs fs src specs acc →
      (∀ s ∈ specs, s.2.2.1 = ([] : List String)) →
      kv ∈ acc ∨ ∃ s ∈ specs, kv.1 = s.2.2.2.1 := by
  intro specs
  induction specs with
  | nil => intro acc kv hkv _; exact Or.inl hkv
  | cons s rest ih =>
    intro acc kv hkv h
    have hev : s.2.2.1 = ([] : List String) := h _ (List.mem_cons_self _ _)
    have hrest : ∀ s ∈ rest, s.2.2.1 = ([] : List String) :=
      fun s hs => h s (List.mem_cons_of_mem _ hs)
    simp only [processSpecs] at hkv
    cases hres : resolveSpecRow fs src s with
    | none =>
      rw [hres] at hkv
      rcases ih _ kv hkv hrest with hm | ⟨s2, hs2, he2⟩
      · exact Or.inl hm
      · exact Or.inr ⟨s2, List.mem_cons_of_mem _ hs2, he2⟩
    | some p =>
      rw [hres] at hkv
      rcases ih _ kv hkv hrest with hm | ⟨s2, hs2, he2⟩
      · rcases mem_upsertA hm with h1 | h2
        · refine Or.inr ⟨s, List.mem_cons_self _ _, ?_⟩
          rw [h1]
          exact resolveSpecRow_no_env_key fs src s p hev hres
        · exact Or.inl h2
      · exact Or.inr ⟨s2, List.mem_cons_of_mem _ hs2, he2⟩

/-- C9: supplying `workspace_home` makes profile-mount resolution ignore
the orchestrator process's own environment-variable override paths
entirely (the result does not depend on `os.environ` at all: overrides
are read from the profile cache or not at all), and conventional default
paths resolve relative to `workspace_home` (every resolved mount other
than the nested AWS SSO token-cache bind is `workspace_home`-prefixed);
without `workspace_home`, an environment-variable override path whose
target exists is preferred over the conventional default. -/
theorem workspace_home_isolates_mounts :
    (∀ (p : ProfileSettings) (fs : FS) (osEnv1 osEnv2 : Env)
      (realHome : Mounts.Path) (cacheOf : String → Mounts.Path → Env)
      (pr : Option String) (wh : Mounts.Path),
      _resolve_profile_mounts p fs osEnv1 realHome cacheOf pr (some wh) =
        _resolve_profile_mounts p fs osEnv2 realHome cacheOf pr
          (some wh)) ∧
    (∀ (p : ProfileSettings) (fs : FS) (osEnv : Env)
      (realHome : Mounts.Path) (cacheOf : String → Mounts.Path → Env)
      (wh : Mounts.Path) (kv : Mounts.Path × VolumeBind),
      kv ∈ _resolve_profile_mounts p fs osEnv realHome cacheOf none
        (some wh) →
      kv.1 = realHome ++ [".aws", "sso", "cache"] ∨ wh <+: kv.1) ∧
    (∀ (v : String) (rest : List String) (fallback : Mounts.Path)
      (up : Bool) (src : Env) (fs : FS) (val : Mounts.Path),
      lookupA src v = some val →
      fs.isDir (if up then parentDir val else val) = true →
      _resolve_dir (v :: rest) fallback up src fs =
        some (if up then parentDir val else val)) := by
  refine ⟨?_, ?_, ?_⟩
  · intro p fs osEnv1 osEnv2 realHome cacheOf pr wh
    cases pr with
    | none =>
      simp only [Mounts._resolve_profile_mounts, List.isEmpty_nil,
        Bool.not_true, Bool.false_or, if_true, Option.getD_some,
        Option.getD_none, Bool.false_eq_true, if_false]
      rw [processSpecs_env_irrelevant fs osEnv1 osEnv2 _ []]
      intro s hs
      simp only [List.mem_cons, List.not_mem_nil, or_false] at hs
      rcases hs with rfl | rfl | rfl | rfl | rfl | rfl | rfl <;> rfl
    | some prof =>
      by_cases hcv : (cacheOf prof wh).isEmpty
      · have hnil : cacheOf prof wh = [] := by
          simpa using hcv
        simp only [Mounts._resolve_profile_mounts, hnil, List.isEmpty_nil,
          Bool.not_true, Bool.false_or, if_true, Option.getD_some,
          Option.getD_none, Bool.false_eq_true, if_false]
        rw [processSpecs_env_irrelevant fs osEnv1 osEnv2 _ []]
        intro s hs
        simp only [List.mem_cons, List.not_mem_nil, or_false] at hs
        rcases hs with rfl | rfl | rfl | rfl | rfl | rfl | rfl <;> rfl
      · simp only [Mounts._resolve_profile_mounts, hcv, Bool.not_false,
          if_false, Option.getD_some, Bool.false_eq_true]
  · intro p fs osEnv realHome cacheOf wh kv hkv
    have hspecs : ∀ s ∈ [
        (p.mount_aws, "aws", ([] : List String), wh ++ [".aws"], true),
        (p.mount_azure, "azure", ([] : List String), wh ++ [".azure"],
          false),
        (p.mount_kube, "kube", ([] : List String), wh ++ [".kube"], true),
        (p.mount_ssh, "ssh", ([] : List String), wh ++ [".ssh"], false),
        (p.mount_gitconfig, "gitconfig", ([] : List String),
          wh ++ [".gitconfig"], false),
        (p.mount_gcloud, "gcloud", ([] : List String), wh ++ [".gcloud"],
          false),
        (p.mount_terraform, "terraform", ([] : List String),
          wh ++ [".terraform.d"], true)],
        s.2.2.1 = ([] : List String) := by
      intro s hs
      simp only [List.mem_cons, List.not_mem_nil, or_false] at hs
      rcases hs with rfl | rfl | rfl | rfl | rfl | rfl | rfl <;> rfl
    simp only [Mounts._resolve_profile_mounts, List.isEmpty_nil,
      Bool.not_true, Bool.false_or, if_true, Option.getD_some,
      Option.getD_none, Bool.false_eq_true, if_false] at hkv
    have hbody : ∀ kv2, kv2 ∈ processSpecs fs osEnv [
        (p.mount_aws, "aws", ([] : List String), wh ++ [".aws"], true),
        (p.mount_azure, "azure", ([] : List String), wh ++ [".azure"],
          false),
        (p.mount_kube, "kube", ([] : List String), wh ++ [".kube"], true),
        (p.mount_ssh, "ssh", ([] : List String), wh ++ [".ssh"], false),
        (p.mount_gitconfig, "gitconfig", ([] : List String),
          wh ++ [".gitconfig"], false),
        (p.mount_gcloud, "gcloud", ([] : List String), wh ++ [".gcloud"],
          false),
        (p.mount_terraform, "terraform", ([] : List String),
          wh ++ [".terraform.d"], true)] [] →
        wh <+: kv2.1 := by
      intro kv2 hm
      rcases processSpecs_keys_sub fs osEnv _ [] kv2 hm hspecs with
        hnil | ⟨s, hs, he⟩
      · exact absurd hnil (List.not_mem_nil kv2)
      · simp only [List.mem_cons, List.not_mem_nil, or_false] at hs
        rcases hs with rfl | rfl | rfl | rfl | rfl | rfl | rfl <;>
          (rw [he]; exact List.prefix_append wh _)
    split at hkv
    · rcases mem_upsertA hkv with h1 | h2
      · left
        rw [h1]
      · exact Or.inr (hbody kv h2)
    · exact Or.inr (hbody kv hkv)
  · intro v rest fallback up src fs val hv hd
    simp only [Mounts._resolve_dir, hv, hd, if_true]

/-- C9 witness: concrete instances of all three parts — an AWS env
override present in `os.environ` does not change the result once
`workspace_home` is supplied; the one resolved mount under
`workspace_home` is `workspace_home`-prefixed (or the SSO bind); and
without `workspace_home` an existing `AZURE_CONFIG_DIR` override beats an
existing conventional default. -/
theorem workspace_home_isolates_mounts_witness :
    (_resolve_profile_mounts
        (ProfileSettings.mk true true true true true true true)
        (FS.mk [["", "profiles", "fb", ".aws"]] [])
        [("AWS_CONFIG_FILE", ["", "elsewhere", "cfg"])]
        ["", "Users", "host"] (fun _ _ => []) none
        (some ["", "profiles", "fb"]) =
      _resolve_profile_mounts
        (ProfileSettings.mk true true true true true true true)
        (FS.mk [["", "profiles", "fb", ".aws"]] []) []
        ["", "Users", "host"] (fun _ _ => []) none
        (some ["", "profiles", "fb"])) ∧
    ((["", "profiles", "fb", ".aws"],
        (⟨"/home/developer/.aws", "rw"⟩ : VolumeBind)).1 =
        ["", "Users", "host"] ++ [".aws", "sso", "cache"] ∨
      ["", "profiles", "fb"] <+:
        (["", "profiles", "fb", ".aws"],
          (⟨"/home/developer/.aws", "rw"⟩ : VolumeBind)).1) ∧
    (_resolve_dir ["AZURE_CONFIG_DIR"] ["", "h", ".azure"] false
        [("AZURE_CONFIG_DIR", ["", "x", "az"])]
        (FS.mk [["", "x", "az"], ["", "h", ".azure"]] []) =
      some ["", "x", "az"]) := by
  refine ⟨?_, ?_, ?_⟩
  · exact workspace_home_isolates_mounts.1
      (ProfileSettings.mk true true true true true true true)
      (FS.mk [["", "profiles", "fb", ".aws"]] [])
      [("AWS_CONFIG_FILE", ["", "elsewhere", "cfg"])] []
      ["", "Users", "host"] (fun _ _ => []) none ["", "profiles", "fb"]
  · exact workspace_home_isolates_mounts.2.1
      (ProfileSettings.mk true true true true true true true)
      (FS.mk [["", "profiles", "fb", ".aws"]] []) []
      ["", "Users", "host"] (fun _ _ => []) ["", "profiles", "fb"]
      (["", "profiles", "fb", ".aws"],
        (⟨"/home/developer/.aws", "rw"⟩ : VolumeBind))
      (by decide)
  · exact workspace_home_isolates_mounts.2.2 "AZURE_CONFIG_DIR" []
      ["", "h", ".azure"] false [("AZURE_CONFIG_DIR", ["", "x", "az"])]
      (FS.mk [["", "x", "az"], ["", "h", ".azure"]] [])
      ["", "x", "az"] rfl rfl

/-- Helper for C8: the underscore is not alphanumeric. -/
theorem word_ne_underscore {c : Char} (h : isWordChar c = true) :
    (c = '_') = False := by
  simp only [eq_iff_iff, iff_false]
  intro hc
  subst hc
  exact absurd h (by decide)

/-- Helper for C8: after emitting an underscore the automaton ignores
the rest of the current non-word run. -/
theorem collapseAux_true_eq (cs : List Char) :
    collapseAux true cs =
      collapseAux false (cs.dropWhile (fun d => !isWordChar d)) := by
  induction cs with
  | nil => rfl
  | cons c cs ih =>
    by_cases h : isWordChar c
    · simp [collapseAux, h, List.dropWhile_cons]
    · simp [collapseAux, h, List.dropWhile_cons, ih]

/-- Helper for C8: the automaton copies a leading word run verbatim. -/
theorem collapseAux_false_takeDrop (l : List Char) :
    collapseAux false l =
      l.takeWhile isWordChar ++
        collapseAux false (l.dropWhile isWordChar) := by
  induction l with
  | nil => rfl
  | cons c cs ih =>
    by_cases h : isWordChar c
    · simp [collapseAux, h, List.takeWhile_cons, List.dropWhile_cons, ih]
    · simp [List.takeWhile_cons, List.dropWhile_cons, h]

/-- Helper for C8: word runs are unaffected by a leading non-word run. -/
theorem wordRuns_dropWhile_nonword (l : List Char) :
    wordRuns (l.dropWhile (fun d => !isWordChar d)) = wordRuns l := by
  induction l with
  | nil => rfl
  | cons c cs ih =>
    by_cases h : isWordChar c
    · simp [List.dropWhile_cons, h]
    · have hr : wordRuns (c :: cs) = wordRuns cs := by
        simp only [wordRuns, h, Bool.false_eq_true, if_false]
      simp [List.dropWhile_cons, h, ih, hr]

/-- Helper for C8: stripping leading underscores from the automaton's
output equals letting the automaton skip the input's leading non-word
run. -/
theorem collapse_dropWhile_underscore (l : List Char) :
    (collapseAux false l).dropWhile (fun c => c = '_') =
      collapseAux false (l.dropWhile (fun d => !isWordChar d)) := by
  cases l with
  | nil => rfl
  | cons c cs =>
    by_cases h : isWordChar c
    · have hcu := word_ne_underscore h
      simp [collapseAux, h, List.dropWhile_cons, hcu]
    · have h1 : collapseAux false (c :: cs) =
          '_' :: collapseAux true cs := by
        simp [collapseAux, h]
      rw [h1, collapseAux_true_eq]
      have h2 : (c :: cs).dropWhile (fun d => !isWordChar d) =
          cs.dropWhile (fun d => !isWordChar d) := by
        simp [List.dropWhile_cons, h]
      rw [h2, List.dropWhile_cons]
      simp only [decide_True, if_true]
      cases hr : cs.dropWhile (fun d => !isWordChar d) with
      | nil => rfl
      | cons d ds =>
        have hd : isWordChar d = true := by
          have hwit := List.head?_dropWhile_not
            (fun d => !isWordChar d) cs
          rw [hr] at hwit
          simpa using hwit
        have hdu := word_ne_underscore hd
        simp [collapseAux, hd, List.dropWhile_cons, hdu]

/-- Helper for C8: reversing a list of word characters exposes no
strippable underscore. -/
theorem dropWhile_underscore_word_rev (a : List Char)
    (ha : ∀ c ∈ a, isWordChar c = true) :
    a.reverse.dropWhile (fun c => c = '_') = a.reverse := by
  cases harev : a.reverse with
  | nil => rfl
  | cons d ds =>
    have hd : d ∈ a := by
      rw [← List.mem_reverse, harev]
      exact List.mem_cons_self d ds
    have hdu := word_ne_underscore (ha d hd)
    simp [List.dropWhile_cons, hdu]

/-- Helper for C8: a pure word run is trim-invariant. -/
theorem trimTrail_word_list (a : List Char)
    (ha : ∀ c ∈ a, isWordChar c = true) :
    (a.reverse.dropWhile (fun c => c = '_')).reverse = a := by
  rw [dropWhile_underscore_word_rev a ha, List.reverse_reverse]

/-- Helper for C8: a word run followed by one underscore trims to the
run. -/
theorem trimTrail_word_underscore (a : List Char)
    (ha : ∀ c ∈ a, isWordChar c = true) :
    ((a ++ ['_']).reverse.dropWhile (fun c => c = '_')).reverse = a := by
  have h1 : (a ++ ['_']).reverse = '_' :: a.reverse := by simp
  rw [h1, List.dropWhile_cons]
  simp only [decide_True, if_true]
  rw [dropWhile_underscore_word_rev a ha, List.reverse_reverse]

/-- Helper for C8: trailing-underscore stripping does not cross into the
prefix when the suffix keeps a non-underscore character. -/
theorem trimTrail_append (x y : List Char)
    (hy : (y.reverse.dropWhile (fun c => c = '_')).isEmpty = false) :
    ((x ++ y).reverse.dropWhile (fun c => c = '_')).reverse =
      x ++ (y.reverse.dropWhile (fun c => c = '_')).reverse := by
  rw [List.reverse_append, List.dropWhile_append, hy]
  simp

/-- Helper for C8: the automaton's output on an input starting with a
word character survives trailing trim non-emptily. -/
theorem collapse_trim_nonempty (d : Char) (ds : List Char)
    (hd : isWordChar d = true) :
    ((collapseAux false (d :: ds)).reverse.dropWhile
      (fun c => c = '_')).isEmpty = false := by
  have hcol : collapseAux false (d :: ds) =
      d :: collapseAux false ds := by
    simp [collapseAux, hd]
  rw [hcol]
  cases hnil : (d :: collapseAux false ds).reverse.dropWhile
      (fun c => c = '_') with
  | nil =>
    exfalso
    rw [List.dropWhile_eq_nil_iff] at hnil
    have hdmem : d ∈ (d :: collapseAux false ds).reverse := by simp
    have hmem := hnil d hdmem
    simp only [decide_eq_true_eq] at hmem
    rw [word_ne_underscore hd] at hmem
    exact hmem
  | cons z zs => rfl

/-- Helper for C8: the nil equation of the well-founded `wordRuns`. -/
theorem wordRuns_nil : wordRuns ([] : List Char) = [] := by
  simp [wordRuns]

/-- Helper for C8: `joinRuns` over a non-empty tail inserts exactly one
underscore. -/
theorem joinRuns_cons (r : List Char) (rest : List (List Char))
    (h : rest ≠ []) :
    joinRuns (r :: rest) = r ++ '_' :: joinRuns rest := by
  cases rest with
  | nil => exact absurd rfl h
  | cons r2 rs => rfl

/-- Helper for C8 (main induction): on inputs starting with a word
character (or empty), the trailing-trimmed automaton output is the word
runs joined by single underscores. -/
theorem collapse_trimTrail_eq_joinRuns :
    ∀ (n : Nat) (l : List Char), l.length ≤ n →
      (∀ c, l.head? = some c → isWordChar c = true) →
      ((collapseAux false l).reverse.dropWhile
        (fun c => c = '_')).reverse = joinRuns (wordRuns l) := by
  intro n
  induction n with
  | zero =>
    intro l hl _
    have h0 : l = [] := List.length_eq_zero.mp (Nat.le_zero.mp hl)
    subst h0
    rw [wordRuns_nil]
    rfl
  | succ n ih =>
    intro l hl hh
    cases l with
    | nil =>
      rw [wordRuns_nil]
      rfl
    | cons c cs =>
      have hc : isWordChar c = true := hh c rfl
      have hall : ∀ x ∈ c :: cs.takeWhile isWordChar,
          isWordChar x = true := by
        intro x hx
        rcases List.mem_cons.mp hx with rfl | hx2
        · exact hc
        · exact List.mem_takeWhile_imp hx2
      have hsplit : collapseAux false (c :: cs) =
          (c :: cs.takeWhile isWordChar) ++
            collapseAux false (cs.dropWhile isWordChar) := by
        have hbase := collapseAux_false_takeDrop (c :: cs)
        simpa [List.takeWhile_cons, List.dropWhile_cons, hc] using hbase
      have hruns : wordRuns (c :: cs) =
          (c :: cs.takeWhile isWordChar) ::
            wordRuns (cs.dropWhile isWordChar) := by
        simp only [wordRuns, hc, if_true]
      rw [hsplit, hruns]
      cases hr : cs.dropWhile isWordChar with
      | nil =>
        rw [show collapseAux false ([] : List Char) = [] from rfl,
          List.append_nil, wordRuns_nil]
        rw [show joinRuns [c :: cs.takeWhile isWordChar] =
          c :: cs.takeWhile isWordChar from rfl]
        exact trimTrail_word_list _ hall
      | cons d ds =>
        have hd : isWordChar d = false := by
          have hwit := List.head?_dropWhile_not isWordChar cs
          rw [hr] at hwit
          simpa using hwit
        have hcol2 : collapseAux false (d :: ds) =
            '_' :: collapseAux false
              (ds.dropWhile (fun e => !isWordChar e)) := by
          simp [collapseAux, hd, collapseAux_true_eq]
        have hruns2 : wordRuns (d :: ds) =
            wordRuns (ds.dropWhile (fun e => !isWordChar e)) := by
          have hbase := wordRuns_dropWhile_nonword (d :: ds)
          rw [List.dropWhile_cons] at hbase
          simp only [hd, Bool.not_false, if_true] at hbase
          exact hbase.symm
        rw [hcol2, hruns2]
        cases hr2 : ds.dropWhile (fun e => !isWordChar e) with
        | nil =>
          rw [show collapseAux false ([] : List Char) = [] from rfl,
            wordRuns_nil]
          rw [show joinRuns [c :: cs.takeWhile isWordChar] =
            c :: cs.takeWhile isWordChar from rfl]
          have hform : (c :: cs.takeWhile isWordChar) ++
              '_' :: ([] : List Char) =
              (c :: cs.takeWhile isWordChar) ++ ['_'] := rfl
          rw [hform]
          exact trimTrail_word_underscore _ hall
        | cons e es =>
          have he : isWordChar e = true := by
            have hwit := List.head?_dropWhile_not
              (fun e => !isWordChar e) ds
            rw [hr2] at hwit
            simpa using hwit
          have hlen : (e :: es).length ≤ n := by
            have h1 : (d :: ds).length ≤ cs.length := by
              rw [← hr]
              exact (List.dropWhile_sublist isWordChar).length_le
            have h2 : (e :: es).length ≤ ds.length := by
              rw [← hr2]
              exact (List.dropWhile_sublist
                (fun e => !isWordChar e)).length_le
            have h3 : (c :: cs).length ≤ n + 1 := hl
            simp only [List.length_cons] at h1 h2 h3 ⊢
            omega
          have hhead : ∀ x, (e :: es).head? = some x →
              isWordChar x = true := by
            intro x hx
            simp only [List.head?_cons, Option.some.injEq] at hx
            rw [← hx]
            exact he
          have hIH := ih (e :: es) hlen hhead
          have hne := collapse_trim_nonempty e es he
          have happ := trimTrail_append
            ((c :: cs.takeWhile isWordChar) ++ ['_'])
            (collapseAux false (e :: es)) hne
          have hform : (c :: cs.takeWhile isWordChar) ++
              '_' :: collapseAux false (e :: es) =
              ((c :: cs.takeWhile isWordChar) ++ ['_']) ++
                collapseAux false (e :: es) := by
            simp
          rw [hform, happ, hIH]
          have hrne : wordRuns (e :: es) ≠ [] := by
            simp only [wordRuns, he, if_true]
            exact List.cons_ne_nil _ _
          rw [joinRuns_cons _ _ hrne]
          simp

/-- Helper for C8: the collapse-then-trim pipeline equals joining the
word runs with single underscores, for every input. -/
theorem trim_collapse_eq_joinRuns (l : List Char) :
    trimEdges (collapseRuns l) = joinRuns (wordRuns l) := by
  unfold trimEdges collapseRuns
  rw [collapse_dropWhile_underscore]
  have hhead : ∀ c,
      (l.dropWhile (fun d => !isWordChar d)).head? = some c →
      isWordChar c = true := by
    intro c hc
    have hwit := List.head?_dropWhile_not (fun d => !isWordChar d) l
    rw [hc] at hwit
    simpa using hwit
  rw [collapse_trimTrail_eq_joinRuns
    (l.dropWhile (fun d => !isWordChar d)).length _ (Nat.le_refl _) hhead]
  rw [wordRuns_dropWhile_nonword]

/-- C8: the derived secret env-name is `title + "_" + label` with every
run of non-alphanumeric characters collapsed to a single underscore,
leading/trailing underscores trimmed, and the result upper-cased — for
every title and label the implementation agrees with the independent
word-runs reading of that rule; in particular `("langfuse-api",
"public-key")` derives `"LANGFUSE_API_PUBLIC_KEY"`, and on a name
collision the later-resolved value overwrites the earlier one. -/
theorem env_name_derivation :
    (∀ item_title field_label, _to_env_name item_title field_label =
      specEnvName item_title field_label) ∧
    _to_env_name "langfuse-api" "public-key" =
      "LANGFUSE_API_PUBLIC_KEY" ∧
    (∃ m, resolve_from_op
        (Except.ok [ItemSummary.mk "i1" (some "a"),
          ItemSummary.mk "i2" (some "a")])
        (fun i => if i = "i1" then
            Except.ok [OpField.mk "f1" "STRING" "x" "v1"]
          else Except.ok [OpField.mk "f2" "STRING" "x" "v2"]) =
        Except.ok m ∧ lookupA m "A_X" = some "v2") := by
  refine ⟨?_, by decide, ⟨_, rfl, rfl⟩⟩
  intro t l
  unfold _to_env_name specEnvName
  simp only []
  rw [trim_collapse_eq_joinRuns]

end Claims

end Spec2Proof
